import Mathlib

/-!
Shallow embedding of the reliable tool-call subsystem of the SQLite MCP client
(`sqlite_client/src/client_sqlite.py`): response normalization, the retry
loop, the dual-mode insight-append workflow and the memo reader, together
with theorems settling the specification's claims about them.

Python values are modelled by the inductive type `Py`; exceptions escaping a
function are modelled by the `Except`/sum structure of each function's result
type.  Attribute probing (`hasattr`) is modelled by the shape of `Py`
constructors; `asyncio` timeouts appear as explicit attempt outcomes.
-/

namespace MCPClient

/-- Model of the Python values that flow through the client's response
handling: strings, lists, `None`, and generic objects.  An object carries an
optional `text` attribute (the MCP SDK types it as `str`), an optional
`content` attribute (an arbitrary value), and its default string rendering
(what Python's `str()` would produce for it). -/
inductive Py where
  | pstr (s : String)
  | plist (xs : List Py)
  | pnone
  | pobj (text : Option String) (content : Option Py) (rendering : String)

mutual

/-- Python's `repr()` of a modelled value, used by `str()` on lists. -/
def pyRepr : Py → String
  | .pstr s => "\x27" ++ s ++ "\x27"
  | .plist xs => "[" ++ pyReprList xs ++ "]"
  | .pnone => "None"
  | .pobj _ _ rendering => rendering

/-- Comma-separated `repr()`s of the elements of a Python list. -/
def pyReprList : List Py → String
  | [] => ""
  | [x] => pyRepr x
  | x :: y :: xs => pyRepr x ++ ", " ++ pyReprList (y :: xs)

end

/-- Python's `str()` of a modelled value (default string rendering). -/
def str_render : Py → String
  | .pstr s => s
  | .plist xs => "[" ++ pyReprList xs ++ "]"
  | .pnone => "None"
  | .pobj _ _ rendering => rendering

/-- Python's `sep.join(parts)`. -/
def pyJoin (sep : String) : List String → String
  | [] => ""
  | [x] => x
  | x :: y :: xs => x ++ sep ++ pyJoin sep (y :: xs)

/-- Outcome of `json.loads` on the extracted content (client_sqlite.py line
515).  `decodeError` stands for the caught `json.JSONDecodeError`/`TypeError`
pair; `unexpected` stands for any other exception escaping the call (for
example a `RecursionError` on pathologically nested input), which the inner
`except` clause does not catch. -/
inductive JsonOutcome where
  | ok (v : Py)
  | decodeError
  | unexpected (e : String)

/-- Outcome of `ast.literal_eval` on the extracted content (line 520).
`badNode` stands for the caught `SyntaxError`/`ValueError` pair; `unexpected`
stands for any other escaping exception. -/
inductive LitOutcome where
  | ok (v : Py)
  | badNode
  | unexpected (e : String)

/-- The content-extraction phase of `parse_response` (lines 500-511): if the
response has a `content` attribute that is a non-empty list whose first
element has a `text` attribute, take that text; else if the `content`
attribute itself has a `text` attribute, take that; otherwise keep the
`content` value (when present) or the response itself. -/
def extract_content (response : Py) : Py :=
  match response with
  | .pobj _ (some c) _ =>
    match c with
    | .plist (first :: rest) =>
      match first with
      | .pobj (some t) _ _ => .pstr t
      | _ => .plist (first :: rest)
    | .pobj (some t) _ _ => .pstr t
    | other => other
  | r => r

/-- The body of `parse_response` inside the outer `try` (lines 499-523),
with the exception channel explicit: `.error e` means an exception `e`
escaped to the outer handler.  On string content the code tries
`json.loads`, then `ast.literal_eval`, then returns the string unchanged.
On non-string content `json.loads` raises `TypeError` (caught) and
`ast.literal_eval` raises `ValueError` ("malformed node or string", caught),
so the content is returned as is. -/
def parse_inner (jparse : String → JsonOutcome) (lparse : String → LitOutcome)
    (response : Py) : Except String Py :=
  match extract_content response with
  | .pstr s =>
    match jparse s with
    | .ok v => .ok v
    | .decodeError =>
      match lparse s with
      | .ok v => .ok v
      | .badNode => .ok (.pstr s)
      | .unexpected e => .error e
    | .unexpected e => .error e
  | c => .ok c

/-- `SQLiteMCPClient.parse_response` (lines 490-526): the inner body wrapped
in `except Exception: return None`. -/
def parse_response (jparse : String → JsonOutcome) (lparse : String → LitOutcome)
    (response : Py) : Py :=
  match parse_inner jparse lparse response with
  | .ok v => v
  | .error _ => .pnone

/-- The success-shape probe of `append_insight` (lines 244-246): the text of
the first element of a non-empty `content` list, when that shape is present. -/
def first_content_text (result : Py) : Option String :=
  match result with
  | .pobj _ (some (.plist (first :: _))) _ =>
    match first with
    | .pobj (some t) _ _ => some t
    | _ => none
  | _ => none

/-- `config.TIMEOUT_SECONDS` with its default value (config.py line 20); the
general retry policy's default per-call timeout in seconds. -/
def TIMEOUT_SECONDS : Nat := 90

/-- Outcome of one awaited transport attempt
(`asyncio.wait_for(self.session.call_tool(...), timeout)`):
a raw response, an `asyncio.TimeoutError`, or any other exception. -/
inductive AttemptResult where
  | success (resp : Py)
  | timeout
  | failure (msg : String)

/-- Whether an attempt outcome enters an `except` clause. -/
def isFailure : AttemptResult → Bool
  | .success _ => false
  | .timeout => true
  | .failure _ => true

/-- The exception propagated out of the retry loop: `call_with_timeout`
(lines 454-471) converts `asyncio.TimeoutError` into
`TimeoutError("Operation timed out after {timeout} seconds")`, so a timeout
is reported with wording distinct from a transport error, which propagates
with its own message. -/
inductive RetryError where
  | timeoutErr (timeoutSecs : Nat)
  | transportErr (msg : String)

/-- The error an attempt outcome raises, `none` on success. -/
def raisedError (timeoutSecs : Nat) : AttemptResult → Option RetryError
  | .success _ => none
  | .timeout => some (.timeoutErr timeoutSecs)
  | .failure msg => some (.transportErr msg)

/-- The per-tool timeout resolution of `call_tool_with_retry` (lines
544-549): 60 seconds for `append_insight`, `TIMEOUT_SECONDS` otherwise. -/
def resolve_timeout (tool_name : String) : Nat :=
  if tool_name = "append_insight" then 60 else TIMEOUT_SECONDS

/-- The `while retries <= max_retries` loop of `call_tool_with_retry`
(lines 551-566).  `transport i` is the outcome of the attempt with zero-based
index `i`; `remaining` is `max_retries + 1 - retries`, the number of attempts
the loop may still make.  Returns the result (normal return or raised last
error) together with the number of transport attempts actually made.  The
`remaining = 0` case models the loop condition failing at entry, where the
Python function would fall off the loop and return `None`; it is unreachable
from `call_tool_with_retry`, which starts with `retries = 0`. -/
def retry_go (jparse : String → JsonOutcome) (lparse : String → LitOutcome)
    (transport : Nat → AttemptResult) (timeoutSecs : Nat) :
    Nat → Nat → Except RetryError Py × Nat
  | _, 0 => (.ok .pnone, 0)
  | idx, n + 1 =>
    match transport idx with
    | .success resp => (.ok (parse_response jparse lparse resp), 1)
    | .timeout =>
      if n = 0 then (.error (.timeoutErr timeoutSecs), 1)
      else
        let r := retry_go jparse lparse transport timeoutSecs (idx + 1) n
        (r.1, r.2 + 1)
    | .failure msg =>
      if n = 0 then (.error (.transportErr msg), 1)
      else
        let r := retry_go jparse lparse transport timeoutSecs (idx + 1) n
        (r.1, r.2 + 1)

/-- `SQLiteMCPClient.call_tool_with_retry` (lines 528-566): resolve the
per-tool timeout, then run the attempt loop starting at `retries = 0` with
`max_retries + 1` attempts allowed.  The `retry_delay` sleep between
attempts affects only latency and is not part of the state model. -/
def call_tool_with_retry (jparse : String → JsonOutcome) (lparse : String → LitOutcome)
    (transport : Nat → AttemptResult) (tool_name : String) (max_retries : Nat) :
    Except RetryError Py × Nat :=
  retry_go jparse lparse transport (resolve_timeout tool_name) 0 (max_retries + 1)

/-- The client state the insight workflow touches: whether `self.session`
is established, and the local mirror `self._insights` (an append-only list
of insight texts, in submission order). -/
structure ClientState where
  session : Bool
  insights : List String

/-- Result of a client method call: either an exception escapes to the
caller, or a `{"message": ...}` dictionary is returned. -/
inductive PyResult where
  | raised (msg : String)
  | returned (message : String)

/-- The dedicated timeout of the direct (single-attempt) insight append call,
`asyncio.wait_for(..., timeout=5)` at lines 238-241 and 264-267. -/
def append_insight_direct_timeout : Nat := 5

/-- `SQLiteMCPClient.append_insight` (lines 213-254).  `transport t` is the
outcome of one awaited `session.call_tool("append_insight", ...)` under
`asyncio.wait_for` timeout `t`.  Returns the new client state, the result
delivered to the caller, and the number of transport attempts awaited before
returning.  The insight is appended to the local mirror synchronously,
before any network I/O; the non-blocking path schedules
`_append_insight_task` as a detached task and returns at once; the blocking
path makes exactly one attempt under the dedicated 5-second timeout. -/
def append_insight (st : ClientState) (insight : String) (blocking : Bool)
    (transport : Nat → AttemptResult) : ClientState × PyResult × Nat :=
  if st.session = false then (st, .raised "Not connected to server", 0)
  else
    let st' : ClientState := { st with insights := st.insights ++ [insight] }
    if blocking = false then
      (st', .returned "Insight submission started (non-blocking)", 0)
    else
      match transport append_insight_direct_timeout with
      | .success result =>
        match first_content_text result with
        | some t => (st', .returned t, 1)
        | none => (st', .returned "Insight added to memo", 1)
      | .timeout =>
        (st', .returned "Insight submission timed out, but may have succeeded", 1)
      | .failure msg => (st', .returned ("Error: " ++ msg), 1)

/-- `SQLiteMCPClient._append_insight_task` (lines 256-272): the detached
background append.  Every outcome of the awaited call is caught and only
logged, so the task never raises into other code paths and never touches
the client state. -/
def append_insight_task (transport : Nat → AttemptResult) : Except String Unit :=
  match transport append_insight_direct_timeout with
  | .success _ => .ok ()
  | .timeout => .ok ()
  | .failure _ => .ok ()

/-- One `append_insight` call in a run: its text, its mode, and the
behaviour of the transport during (or after, for the background task) the
call. -/
structure AppendStep where
  insight : String
  blocking : Bool
  transport : Nat → AttemptResult

/-- A sequence of `append_insight` calls threaded through the client state. -/
def run_appends (st : ClientState) : List AppendStep → ClientState
  | [] => st
  | step :: rest =>
    run_appends (append_insight st step.insight step.blocking step.transport).1 rest

/-- Outcome of the awaited `session.read_resource("memo://insights")` call
under its 5-second timeout (lines 288-291). -/
inductive MemoOutcome where
  | success (result : Py)
  | timeout
  | err (msg : String)

/-- Whether the remote memo read enters the `except` clause at line 300. -/
def memoReadFails : MemoOutcome → Bool
  | .success _ => false
  | .timeout => true
  | .err _ => true

/-- The local-mirror fallback rendering of `get_insights_memo`
(lines 303-317), translated from the source: fixed sentence when the mirror
is empty; otherwise header, bulleted lines joined by newlines, and — only
when more than one record exists — a trailing summary naming the count.
The header characters are the ones literally present in the source file. -/
def render_local_insights (insights : List String) : String :=
  if insights = [] then "No business insights have been discovered yet."
  else
    let bullets := pyJoin "\n" (insights.map (fun insight => "- " ++ insight))
    let memo := "ðŸ“Š Business Intelligence Memo ðŸ“Š\n\n" ++ "Key Insights Discovered:\n\n" ++ bullets
    if 1 < insights.length then
      memo ++ "\n\nSummary:\n" ++
        ("Analysis has revealed " ++ toString insights.length ++
          " key business insights that suggest opportunities for strategic optimization and growth.")
    else memo

/-- `SQLiteMCPClient.get_insights_memo` (lines 274-320).  Raises
`RuntimeError` when no session is established; on a successful remote read
returns the `text` attribute of the `content` attribute when present, the
string rendering otherwise; on any read failure falls back to the local
mirror.  The outer `except` at line 318 is unreachable because the inner
handler already catches every exception and the fallback rendering cannot
raise. -/
def get_insights_memo (st : ClientState) (remote : MemoOutcome) : Except String String :=
  if st.session = false then .error "Not connected to server"
  else
    match remote with
    | .success result =>
      match result with
      | .pobj _ (some content) _ =>
        match content with
        | .pobj (some t) _ _ => .ok t
        | c => .ok (str_render c)
      | r => .ok (str_render r)
    | _ => .ok (render_local_insights st.insights)

/-! ## Specification-side definitions

The following definitions are written from the specification's words, not
from the source; they exist to be compared with the source-translated
definitions above. -/

/-- From the spec: the ordered-precedence text extraction of the
ResponseNormalizer, steps 1-4 of section 4.1, step 4 using the response's
default string rendering. -/
def spec_extract_text (response : Py) : String :=
  match first_content_text response with
  | some t => t
  | none =>
    match response with
    | .pobj _ (some (.pobj (some t) _ _)) _ => t
    | .pstr s => s
    | r => str_render r

/-- From the spec: on the extracted text, attempt a JSON parse, then a
permissive literal parse, then return the original string unchanged. -/
def spec_parse_chain (jparse : String → JsonOutcome) (lparse : String → LitOutcome)
    (s : String) : Py :=
  match jparse s with
  | .ok v => v
  | _ =>
    match lparse s with
    | .ok v => v
    | _ => .pstr s

/-- From the spec: the full normalization as the claim states it —
precedence extraction (string rendering as the final fallback) followed by
the parse chain. -/
def normalize_spec (jparse : String → JsonOutcome) (lparse : String → LitOutcome)
    (response : Py) : Py :=
  spec_parse_chain jparse lparse (spec_extract_text response)

/-- The amended normalization: precedence steps 1 and 2 as the spec states
them, but the final fallback keeps the `content` value (when a `content`
attribute is present) or the response itself unchanged, with no string
rendering; only a text-like extract enters the parse chain, and an
unexpected parser exception yields `None`. -/
def normalize_amended (jparse : String → JsonOutcome) (lparse : String → LitOutcome)
    (response : Py) : Py :=
  let extracted :=
    match first_content_text response with
    | some t => Py.pstr t
    | none =>
      match response with
      | .pobj _ (some (.pobj (some t) _ _)) _ => Py.pstr t
      | .pobj _ (some c) _ => c
      | r => r
  match extracted with
  | .pstr s =>
    (match jparse s with
     | .ok v => v
     | .decodeError =>
       (match lparse s with
        | .ok v => v
        | .badNode => .pstr s
        | .unexpected _ => .pnone)
     | .unexpected _ => .pnone)
  | v => v

/-- From the spec: each record rendered as a bulleted line, in insertion
order, the lines separated by newlines. -/
def bullet_block : List String → String
  | [] => ""
  | [r] => "- " ++ r
  | r :: r2 :: rs => ("- " ++ r) ++ "\n" ++ bullet_block (r2 :: rs)

/-- From the spec: the trailing summary line naming the record count. -/
def memo_summary (n : Nat) : String :=
  "\n\nSummary:\n" ++ "Analysis has revealed " ++ toString n ++
    " key business insights that suggest opportunities for strategic optimization and growth."

/-- From the spec: the header of the synthesized memo. -/
def memo_header : String :=
  "ðŸ“Š Business Intelligence Memo ðŸ“Š\n\n" ++ "Key Insights Discovered:\n\n"

/-- From the spec: the synthesized fallback memo — the fixed no-insights
sentence for an empty mirror, otherwise header, bulleted lines in insertion
order, and the summary exactly when more than one record exists. -/
def memo_fallback_spec (records : List String) : String :=
  if records = [] then "No business insights have been discovered yet."
  else
    memo_header ++ bullet_block records ++
      (if 1 < records.length then memo_summary records.length else "")

/-! ## Ordered containment of substrings -/

/-- `SubChunks cs xs` holds when the character list `cs` contains each
element of `xs` as a contiguous chunk, the chunks appearing in order and
without overlap. -/
inductive SubChunks : List Char → List (List Char) → Prop
  | nil (s : List Char) : SubChunks s []
  | cons (pre x rest : List Char) (xs : List (List Char)) :
      SubChunks rest xs → SubChunks (pre ++ x ++ rest) (x :: xs)

/-- A string contains each of the given strings, in order, as disjoint
substrings. -/
def ContainsInOrder (s : String) (xs : List String) : Prop :=
  SubChunks s.data (xs.map String.data)

/-- A concrete JSON parser behaviour on which every parse attempt fails with
the caught decode error (any non-JSON text behaves like this). -/
def jsonNoParse : String → JsonOutcome := fun _ => .decodeError

/-- A concrete literal parser behaviour on which every parse attempt fails
with the caught `SyntaxError`/`ValueError` (any non-literal text behaves
like this). -/
def litNoParse : String → LitOutcome := fun _ => .badNode

/-! ## Lemmas about ordered containment -/

theorem subChunks_append_left (p : List Char) {s : List Char}
    {xs : List (List Char)} (h : SubChunks s xs) : SubChunks (p ++ s) xs := by
  cases h with
  | nil s => exact SubChunks.nil (p ++ s)
  | cons pre x rest xs h =>
    have : p ++ (pre ++ x ++ rest) = (p ++ pre) ++ x ++ rest := by
      simp [List.append_assoc]
    rw [this]
    exact SubChunks.cons (p ++ pre) x rest xs h

theorem subChunks_append_right (q : List Char) {s : List Char}
    {xs : List (List Char)} (h : SubChunks s xs) : SubChunks (s ++ q) xs := by
  induction h with
  | nil s => exact SubChunks.nil (s ++ q)
  | cons pre x rest xs h ih =>
    have : (pre ++ x ++ rest) ++ q = pre ++ x ++ (rest ++ q) := by
      simp [List.append_assoc]
    rw [this]
    exact SubChunks.cons pre x (rest ++ q) xs ih

theorem subChunks_drop_left {s : List Char} {xs ys : List (List Char)}
    (h : SubChunks s (xs ++ ys)) : SubChunks s ys := by
  induction xs generalizing s with
  | nil => exact h
  | cons x xs ih =>
    cases h with
    | cons pre x rest xs' h => exact subChunks_append_left (pre ++ x) (ih h)

theorem subChunks_bullets (l : List String) :
    SubChunks (pyJoin "\n" (l.map (fun i => "- " ++ i))).data
      (l.map String.data) := by
  induction l with
  | nil => exact SubChunks.nil _
  | cons x xs ih =>
    cases xs with
    | nil =>
      have h0 : ("- " ++ x).data = "- ".data ++ x.data ++ [] := by
        simp [String.data_append]
      simp only [List.map_cons, List.map_nil, pyJoin, h0]
      exact SubChunks.cons _ _ _ _ (SubChunks.nil _)
    | cons y ys =>
      simp only [List.map_cons] at ih ⊢
      simp only [pyJoin]
      have h1 := subChunks_append_left ("\n".data) ih
      have h2 := SubChunks.cons ("- ".data) x.data _ _ h1
      simpa [String.data_append, List.append_assoc] using h2

theorem subChunks_bullets_drop (pre l : List String) :
    SubChunks (pyJoin "\n" ((pre ++ l).map (fun i => "- " ++ i))).data
      (l.map String.data) := by
  have h := subChunks_bullets (pre ++ l)
  have h2 : SubChunks (pyJoin "\n" ((pre ++ l).map (fun i => "- " ++ i))).data
      (pre.map String.data ++ l.map String.data) := by
    rw [← List.map_append]
    exact h
  exact subChunks_drop_left h2

theorem render_contains (pre l : List String) :
    ContainsInOrder (render_local_insights (pre ++ l)) l := by
  cases l with
  | nil => exact SubChunks.nil _
  | cons x xs =>
    unfold ContainsInOrder
    have hb := subChunks_bullets_drop pre (x :: xs)
    have hne : ¬ (pre ++ x :: xs = []) := by simp
    unfold render_local_insights
    rw [if_neg hne]
    by_cases hlen : 1 < (pre ++ x :: xs).length
    · rw [if_pos hlen]
      simpa [String.data_append, List.append_assoc] using
        subChunks_append_left
          (("ðŸ“Š Business Intelligence Memo ðŸ“Š\n\n" ++ "Key Insights Discovered:\n\n").data)
          (subChunks_append_right _ hb)
    · rw [if_neg hlen]
      simpa [String.data_append, List.append_assoc] using
        subChunks_append_left
          (("ðŸ“Š Business Intelligence Memo ðŸ“Š\n\n" ++ "Key Insights Discovered:\n\n").data)
          hb

/-! ## Lemmas relating the source renderer to the spec-side renderer -/

theorem pyJoin_bullets_eq_bullet_block (l : List String) :
    pyJoin "\n" (l.map (fun i => "- " ++ i)) = bullet_block l := by
  induction l with
  | nil => rfl
  | cons x xs ih =>
    cases xs with
    | nil => rfl
    | cons y ys =>
      simp only [List.map_cons, pyJoin, bullet_block] at ih ⊢
      rw [ih]

theorem render_eq_spec (l : List String) :
    render_local_insights l = memo_fallback_spec l := by
  by_cases h : l = []
  · subst h
    rfl
  · unfold render_local_insights memo_fallback_spec
    rw [if_neg h, if_neg h]
    by_cases hlen : 1 < l.length
    · rw [if_pos hlen, if_pos hlen]
      rw [pyJoin_bullets_eq_bullet_block]
      unfold memo_header memo_summary
      simp only [String.append_assoc]
    · rw [if_neg hlen, if_neg hlen]
      rw [pyJoin_bullets_eq_bullet_block]
      unfold memo_header
      rw [String.append_empty]

/-- On any failing remote read, a connected client's memo is the local
fallback rendering. -/
theorem getInsightsMemo_fallback (st : ClientState) (mo : MemoOutcome)
    (h : st.session = true) (hf : memoReadFails mo = true) :
    get_insights_memo st mo = .ok (render_local_insights st.insights) := by
  cases mo with
  | success r => simp [memoReadFails] at hf
  | timeout => simp [get_insights_memo, h]
  | err msg => simp [get_insights_memo, h]

/-! ## Lemmas about the insight workflow state -/

/-- A connected `append_insight` call updates the mirror by appending the
new text, whatever the mode and whatever the transport does. -/
theorem append_insight_state (st : ClientState) (text : String) (b : Bool)
    (tr : Nat → AttemptResult) (h : st.session = true) :
    (append_insight st text b tr).1 =
      { st with insights := st.insights ++ [text] } := by
  cases b with
  | false => simp [append_insight, h]
  | true =>
    cases htr : tr append_insight_direct_timeout with
    | success resp =>
      cases hf : first_content_text resp with
      | none => simp [append_insight, h, htr, hf]
      | some t => simp [append_insight, h, htr, hf]
    | timeout => simp [append_insight, h, htr]
    | failure msg => simp [append_insight, h, htr]

theorem run_appends_state (steps : List AppendStep) :
    ∀ st : ClientState, st.session = true →
      (run_appends st steps).session = true ∧
      (run_appends st steps).insights =
        st.insights ++ steps.map AppendStep.insight := by
  induction steps with
  | nil =>
    intro st h
    exact ⟨h, by simp [run_appends]⟩
  | cons step rest ih =>
    intro st h
    have hst := append_insight_state st step.insight step.blocking step.transport h
    have hsess : (append_insight st step.insight step.blocking step.transport).1.session = true := by
      rw [hst]
      exact h
    obtain ⟨ih1, ih2⟩ := ih _ hsess
    refine ⟨by simpa [run_appends] using ih1, ?_⟩
    show (run_appends (append_insight st step.insight step.blocking step.transport).1 rest).insights = _
    rw [ih2, hst]
    simp

/-! ## Lemmas about the retry loop -/

/-- One unfolding step of the attempt loop when more than one attempt is
still allowed. -/
theorem retry_go_step (jparse : String → JsonOutcome) (lparse : String → LitOutcome)
    (transport : Nat → AttemptResult) (t idx n : Nat) :
    retry_go jparse lparse transport t idx (n + 1 + 1) =
      match transport idx with
      | .success resp => (.ok (parse_response jparse lparse resp), 1)
      | .timeout =>
        ((retry_go jparse lparse transport t (idx + 1) (n + 1)).1,
          (retry_go jparse lparse transport t (idx + 1) (n + 1)).2 + 1)
      | .failure _ =>
        ((retry_go jparse lparse transport t (idx + 1) (n + 1)).1,
          (retry_go jparse lparse transport t (idx + 1) (n + 1)).2 + 1) := by
  cases h : transport idx <;> simp [retry_go, h]

/-- When every attempt fails, the loop with `n + 1` attempts allowed makes
exactly `n + 1` attempts and raises the error of the last one. -/
theorem retry_go_all_fail (jparse : String → JsonOutcome) (lparse : String → LitOutcome)
    (transport : Nat → AttemptResult) (t : Nat)
    (hfail : ∀ i, isFailure (transport i) = true) :
    ∀ n idx, (retry_go jparse lparse transport t idx (n + 1)).2 = n + 1 ∧
      ∃ e, (retry_go jparse lparse transport t idx (n + 1)).1 = .error e ∧
        some e = raisedError t (transport (idx + n)) := by
  intro n
  induction n with
  | zero =>
    intro idx
    cases h0 : transport idx with
    | success resp =>
      have := hfail idx
      rw [h0] at this
      simp [isFailure] at this
    | timeout =>
      refine ⟨by simp [retry_go, h0], RetryError.timeoutErr t, by simp [retry_go, h0], ?_⟩
      rw [Nat.add_zero, h0]
      rfl
    | failure msg =>
      refine ⟨by simp [retry_go, h0], RetryError.transportErr msg, by simp [retry_go, h0], ?_⟩
      rw [Nat.add_zero, h0]
      rfl
  | succ n ih =>
    intro idx
    obtain ⟨ih1, e, ih2, ih3⟩ := ih (idx + 1)
    have hshift : idx + 1 + n = idx + (n + 1) := by omega
    rw [hshift] at ih3
    cases h0 : transport idx with
    | success resp =>
      have := hfail idx
      rw [h0] at this
      simp [isFailure] at this
    | timeout =>
      refine ⟨?_, e, ?_, ih3⟩
      · rw [retry_go_step, h0]
        simp [ih1]
      · rw [retry_go_step, h0]
        simp [ih2]
    | failure msg =>
      refine ⟨?_, e, ?_, ih3⟩
      · rw [retry_go_step, h0]
        simp [ih1]
      · rw [retry_go_step, h0]
        simp [ih2]

/-- When attempts `idx .. idx+k-1` fail and attempt `idx+k` succeeds, the
loop returns the normalized success response after exactly `k + 1`
attempts. -/
theorem retry_go_succeeds (jparse : String → JsonOutcome) (lparse : String → LitOutcome)
    (transport : Nat → AttemptResult) (t : Nat) (resp : Py) :
    ∀ k n idx, k ≤ n →
      (∀ i, i < k → isFailure (transport (idx + i)) = true) →
      transport (idx + k) = .success resp →
      retry_go jparse lparse transport t idx (n + 1) =
        (.ok (parse_response jparse lparse resp), k + 1) := by
  intro k
  induction k with
  | zero =>
    intro n idx _ _ hsucc
    rw [Nat.add_zero] at hsucc
    simp [retry_go, hsucc]
  | succ k ih =>
    intro n idx hk hfail hsucc
    have h0 : isFailure (transport idx) = true := by
      have := hfail 0 (Nat.succ_pos k)
      rwa [Nat.add_zero] at this
    obtain ⟨m, rfl⟩ : ∃ m, n = m + 1 := ⟨n - 1, by omega⟩
    have hk' : k ≤ m := by omega
    have hfail' : ∀ i, i < k → isFailure (transport (idx + 1 + i)) = true := by
      intro i hi
      have := hfail (i + 1) (by omega)
      rwa [show idx + (i + 1) = idx + 1 + i by omega] at this
    have hsucc' : transport (idx + 1 + k) = .success resp := by
      rwa [show idx + 1 + k = idx + (k + 1) by omega]
    have hrec := ih m (idx + 1) hk' hfail' hsucc'
    cases htr : transport idx with
    | success r =>
      rw [htr] at h0
      simp [isFailure] at h0
    | timeout =>
      rw [retry_go_step, htr]
      simp [hrec]
    | failure msg =>
      rw [retry_go_step, htr]
      simp [hrec]

/-- The error cases of the normalization body: an exception escapes to the
outer handler exactly when the extracted content is a string on which one of
the two parsers raises an uncaught (unexpected) exception. -/
theorem parse_inner_error_iff (jparse : String → JsonOutcome) (lparse : String → LitOutcome)
    (r : Py) (e : String) :
    parse_inner jparse lparse r = .error e ↔
      ∃ s, extract_content r = .pstr s ∧
        (jparse s = .unexpected e ∨ (jparse s = .decodeError ∧ lparse s = .unexpected e)) := by
  cases hc : extract_content r with
  | pstr s =>
    cases hj : jparse s with
    | ok v => simp [parse_inner, hc, hj]
    | decodeError =>
      cases hl : lparse s with
      | ok v => simp [parse_inner, hc, hj, hl]
      | badNode => simp [parse_inner, hc, hj, hl]
      | unexpected e2 => simp [parse_inner, hc, hj, hl]
    | unexpected e2 => simp [parse_inner, hc, hj]
  | plist xs => simp [parse_inner, hc]
  | pnone => simp [parse_inner, hc]
  | pobj a b c => simp [parse_inner, hc]

/-- When the extracted content is a string, `parse_response` reduces to the
JSON-then-literal parse chain on it. -/
theorem parse_response_pstr_chain (jparse : String → JsonOutcome) (lparse : String → LitOutcome)
    (s : String) (r : Py) (hc : extract_content r = .pstr s) :
    parse_response jparse lparse r =
      (match jparse s with
       | .ok v => v
       | .decodeError =>
         (match lparse s with
          | .ok v => v
          | .badNode => Py.pstr s
          | .unexpected _ => Py.pnone)
       | .unexpected _ => Py.pnone) := by
  cases hj : jparse s with
  | ok v => simp [parse_response, parse_inner, hc, hj]
  | decodeError =>
    cases hl : lparse s with
    | ok v => simp [parse_response, parse_inner, hc, hj, hl]
    | badNode => simp [parse_response, parse_inner, hc, hj, hl]
    | unexpected e => simp [parse_response, parse_inner, hc, hj, hl]
  | unexpected e => simp [parse_response, parse_inner, hc, hj]

/-! ## Claim theorems -/

/-- Claim C1: for every sequence of `append_insight` calls (any mix of
blocking and non-blocking modes) made while connected, where every remote
transport attempt fails, a subsequent `get_insights_memo()` returns text
containing every submitted insight text in submission order; each call
appends its record to the local mirror synchronously before any network
I/O (the mirror update is the same whatever the transport does). -/
theorem appendInsight_mirror_durability
    (st : ClientState) (steps : List AppendStep) (memoRead : MemoOutcome)
    (hconn : st.session = true)
    (hfail : ∀ step ∈ steps, ∀ t, isFailure (step.transport t) = true)
    (hmemo : memoReadFails memoRead = true) :
    (∀ text b tr, ((append_insight st text b tr).1).insights = st.insights ++ [text]) ∧
    (run_appends st steps).insights = st.insights ++ steps.map AppendStep.insight ∧
    ∃ memoText, get_insights_memo (run_appends st steps) memoRead = .ok memoText ∧
      ContainsInOrder memoText (steps.map AppendStep.insight) := by
  obtain ⟨hs, hm⟩ := run_appends_state steps st hconn
  refine ⟨?_, hm, render_local_insights (run_appends st steps).insights, ?_, ?_⟩
  · intro text b tr
    rw [append_insight_state st text b tr hconn]
  · exact getInsightsMemo_fallback _ _ hs hmemo
  · rw [hm]
    exact render_contains st.insights (steps.map AppendStep.insight)

/-- Witness for claim C1's theorem: two calls, one blocking that times out
and one non-blocking whose background attempt fails, against an initially
empty mirror. -/
theorem appendInsight_mirror_durability_witness :
    (∀ text b tr,
        ((append_insight ⟨true, []⟩ text b tr).1).insights = [] ++ [text]) ∧
    (run_appends ⟨true, []⟩
        [⟨"a", true, fun _ => .timeout⟩, ⟨"b", false, fun _ => .failure "down"⟩]).insights
      = [] ++ ["a", "b"] ∧
    ∃ memoText,
      get_insights_memo
          (run_appends ⟨true, []⟩
            [⟨"a", true, fun _ => .timeout⟩, ⟨"b", false, fun _ => .failure "down"⟩])
          .timeout = .ok memoText ∧
      ContainsInOrder memoText ["a", "b"] :=
  appendInsight_mirror_durability ⟨true, []⟩
    [⟨"a", true, fun _ => .timeout⟩, ⟨"b", false, fun _ => .failure "down"⟩]
    .timeout rfl (by intro step hstep t; fin_cases hstep <;> rfl) rfl

/-- Claim C2: when the transport fails (times out or raises) on every
attempt, `call_tool_with_retry` makes exactly `max_retries + 1` transport
attempts and then fails with the error of the last attempt, a timeout being
reported as a distinct `TimeoutError` and a transport error with its own
message. -/
theorem callTool_exhaustion_retry_bound
    (jparse : String → JsonOutcome) (lparse : String → LitOutcome)
    (transport : Nat → AttemptResult) (tool_name : String) (max_retries : Nat)
    (hfail : ∀ i, isFailure (transport i) = true) :
    (call_tool_with_retry jparse lparse transport tool_name max_retries).2 = max_retries + 1 ∧
    ∃ e, (call_tool_with_retry jparse lparse transport tool_name max_retries).1 = .error e ∧
      (transport max_retries = .timeout → e = .timeoutErr (resolve_timeout tool_name)) ∧
      (∀ msg, transport max_retries = .failure msg → e = .transportErr msg) := by
  obtain ⟨h1, e, h2, h3⟩ :=
    retry_go_all_fail jparse lparse transport (resolve_timeout tool_name) hfail max_retries 0
  rw [Nat.zero_add] at h3
  refine ⟨h1, e, h2, ?_, ?_⟩
  · intro ht
    rw [ht] at h3
    simpa [raisedError] using h3
  · intro msg hm
    rw [hm] at h3
    simpa [raisedError] using h3

/-- Witness for claim C2's theorem: a transport that always times out, with
two retries allowed, makes three attempts and raises the timeout error. -/
theorem callTool_exhaustion_retry_bound_witness :
    (call_tool_with_retry jsonNoParse litNoParse (fun _ => .timeout) "read_query" 2).2 = 2 + 1 ∧
    ∃ e, (call_tool_with_retry jsonNoParse litNoParse (fun _ => .timeout) "read_query" 2).1 = .error e ∧
      (AttemptResult.timeout = AttemptResult.timeout → e = .timeoutErr (resolve_timeout "read_query")) ∧
      (∀ msg, AttemptResult.timeout = AttemptResult.failure msg → e = .transportErr msg) :=
  callTool_exhaustion_retry_bound jsonNoParse litNoParse (fun _ => .timeout)
    "read_query" 2 (fun _ => rfl)

/-- Claim C3: if the transport fails on the first `k` attempts and succeeds
on attempt `k + 1` with `k ≤ max_retries`, `call_tool_with_retry` makes
exactly `k + 1` transport attempts and returns the normalized (parsed)
success response, with no further attempts after the success. -/
theorem callTool_success_after_k_failures
    (jparse : String → JsonOutcome) (lparse : String → LitOutcome)
    (transport : Nat → AttemptResult) (tool_name : String)
    (max_retries k : Nat) (resp : Py)
    (hk : k ≤ max_retries)
    (hfailk : ∀ i, i < k → isFailure (transport i) = true)
    (hsucc : transport k = .success resp) :
    call_tool_with_retry jparse lparse transport tool_name max_retries =
      (.ok (parse_response jparse lparse resp), k + 1) := by
  unfold call_tool_with_retry
  apply retry_go_succeeds jparse lparse transport (resolve_timeout tool_name) resp k max_retries 0 hk
  · intro i hi
    rw [Nat.zero_add]
    exact hfailk i hi
  · rw [Nat.zero_add]
    exact hsucc

/-- Witness for claim C3's theorem: a transport failing once then
succeeding, with two retries allowed, makes two attempts and returns the
parsed response. -/
theorem callTool_success_after_k_failures_witness :
    call_tool_with_retry jsonNoParse litNoParse
        (fun i => if i = 0 then AttemptResult.failure "conn reset" else .success (.pstr "OK"))
        "read_query" 2 =
      (.ok (.pstr "OK"), 1 + 1) :=
  callTool_success_after_k_failures jsonNoParse litNoParse
    (fun i => if i = 0 then AttemptResult.failure "conn reset" else .success (.pstr "OK"))
    "read_query" 2 1 (.pstr "OK") (by decide)
    (by
      intro i hi
      have h0 : i = 0 := by omega
      subst h0
      rfl)
    rfl

/-- Counterexample to claim C4 as stated: on a successful blocking append
whose response lacks the `content[0].text` shape (here a plain string
response `"done"`), the code returns the fixed message
`"Insight added to memo"`, not the normalized response text `"done"`. -/
theorem appendInsight_blocking_success_message_counterexample :
    append_insight ⟨true, []⟩ "note" true (fun _ => .success (.pstr "done")) =
      (⟨true, ["note"]⟩, .returned "Insight added to memo", 1) ∧
    parse_response jsonNoParse litNoParse (.pstr "done") = .pstr "done" ∧
    ("Insight added to memo" : String) ≠ "done" :=
  ⟨rfl, rfl, by decide⟩

/-- Claim C4 (amended): blocking `append_insight` makes exactly one remote
transport attempt (no retry loop) under the dedicated 5-second timeout,
which is shorter than the general policy's default and shorter than the
retry map's `append_insight` timeout; on timeout it returns the soft-failure
message without raising, on any other transport error it returns
`"Error: <details>"` without raising, and on success it returns the first
content element's text as the message when the response has that shape, and
the fixed message `"Insight added to memo"` otherwise. -/
theorem appendInsight_blocking_single_attempt
    (st : ClientState) (text : String) (h : st.session = true) :
    (∀ tr, (append_insight st text true tr).2.2 = 1) ∧
    append_insight_direct_timeout < TIMEOUT_SECONDS ∧
    append_insight_direct_timeout < resolve_timeout "append_insight" ∧
    (∀ tr, tr append_insight_direct_timeout = .timeout →
      append_insight st text true tr =
        ({ st with insights := st.insights ++ [text] },
          .returned "Insight submission timed out, but may have succeeded", 1)) ∧
    (∀ tr msg, tr append_insight_direct_timeout = .failure msg →
      append_insight st text true tr =
        ({ st with insights := st.insights ++ [text] },
          .returned ("Error: " ++ msg), 1)) ∧
    (∀ tr resp t, tr append_insight_direct_timeout = .success resp →
      first_content_text resp = some t →
      append_insight st text true tr =
        ({ st with insights := st.insights ++ [text] }, .returned t, 1)) ∧
    (∀ tr resp, tr append_insight_direct_timeout = .success resp →
      first_content_text resp = none →
      append_insight st text true tr =
        ({ st with insights := st.insights ++ [text] },
          .returned "Insight added to memo", 1)) := by
  refine ⟨?_, by decide, by decide, ?_, ?_, ?_, ?_⟩
  · intro tr
    cases htr : tr append_insight_direct_timeout with
    | success resp =>
      cases hf : first_content_text resp with
      | none => simp [append_insight, h, htr, hf]
      | some t => simp [append_insight, h, htr, hf]
    | timeout => simp [append_insight, h, htr]
    | failure msg => simp [append_insight, h, htr]
  · intro tr htr
    simp [append_insight, h, htr]
  · intro tr msg htr
    simp [append_insight, h, htr]
  · intro tr resp t htr hf
    simp [append_insight, h, htr, hf]
  · intro tr resp htr hf
    simp [append_insight, h, htr, hf]

/-- Witness for claim C4's amended theorem at a connected client with an
empty mirror. -/
theorem appendInsight_blocking_single_attempt_witness :
    (∀ tr, (append_insight ⟨true, []⟩ "n" true tr).2.2 = 1) ∧
    append_insight_direct_timeout < TIMEOUT_SECONDS ∧
    append_insight_direct_timeout < resolve_timeout "append_insight" ∧
    (∀ tr, tr append_insight_direct_timeout = .timeout →
      append_insight ⟨true, []⟩ "n" true tr =
        (⟨true, [] ++ ["n"]⟩,
          .returned "Insight submission timed out, but may have succeeded", 1)) ∧
    (∀ tr msg, tr append_insight_direct_timeout = .failure msg →
      append_insight ⟨true, []⟩ "n" true tr =
        (⟨true, [] ++ ["n"]⟩, .returned ("Error: " ++ msg), 1)) ∧
    (∀ tr resp t, tr append_insight_direct_timeout = .success resp →
      first_content_text resp = some t →
      append_insight ⟨true, []⟩ "n" true tr = (⟨true, [] ++ ["n"]⟩, .returned t, 1)) ∧
    (∀ tr resp, tr append_insight_direct_timeout = .success resp →
      first_content_text resp = none →
      append_insight ⟨true, []⟩ "n" true tr =
        (⟨true, [] ++ ["n"]⟩, .returned "Insight added to memo", 1)) :=
  appendInsight_blocking_single_attempt ⟨true, []⟩ "n" rfl

/-- Claim C5: non-blocking `append_insight` returns the fixed started
message immediately after scheduling the detached background task, with
zero transport attempts awaited before returning, so its result does not
depend on the transport at all; the background task itself never raises. -/
theorem appendInsight_nonblocking_immediate
    (st : ClientState) (text : String) (tr tr' : Nat → AttemptResult)
    (h : st.session = true) :
    append_insight st text false tr =
      ({ st with insights := st.insights ++ [text] },
        .returned "Insight submission started (non-blocking)", 0) ∧
    append_insight st text false tr = append_insight st text false tr' ∧
    append_insight_task tr = .ok () := by
  refine ⟨by simp [append_insight, h], by simp [append_insight, h], ?_⟩
  unfold append_insight_task
  cases tr append_insight_direct_timeout <;> rfl

/-- Witness for claim C5's theorem: a non-blocking call over a transport
that would time out returns the started message at once; the result equals
the one over a transport that would succeed. -/
theorem appendInsight_nonblocking_immediate_witness :
    append_insight ⟨true, []⟩ "x" false (fun _ => .timeout) =
      (⟨true, [] ++ ["x"]⟩, .returned "Insight submission started (non-blocking)", 0) ∧
    append_insight ⟨true, []⟩ "x" false (fun _ => .timeout) =
      append_insight ⟨true, []⟩ "x" false (fun _ => .success .pnone) ∧
    append_insight_task (fun _ => .timeout) = .ok () :=
  appendInsight_nonblocking_immediate ⟨true, []⟩ "x"
    (fun _ => .timeout) (fun _ => .success .pnone) rfl

/-- Claim C10: invoking `append_insight` with no session established raises
immediately in either mode, leaves the client state (and so the local
mirror) unchanged, and awaits no transport attempt. -/
theorem appendInsight_not_connected_raises
    (st : ClientState) (text : String) (b : Bool) (tr : Nat → AttemptResult)
    (h : st.session = false) :
    append_insight st text b tr = (st, .raised "Not connected to server", 0) := by
  simp [append_insight, h]

/-- Witness for claim C10's theorem at a disconnected client holding one
prior record. -/
theorem appendInsight_not_connected_raises_witness :
    append_insight ⟨false, ["old"]⟩ "new" true (fun _ => .timeout) =
      (⟨false, ["old"]⟩, .raised "Not connected to server", 0) :=
  appendInsight_not_connected_raises ⟨false, ["old"]⟩ "new" true (fun _ => .timeout) rfl

/-- Claim C6: whenever the remote memo read fails, a connected
`get_insights_memo` synthesizes its result from the local mirror exactly as
the spec-side renderer describes: the fixed no-insights sentence for an
empty mirror; otherwise a header, each record as a bulleted line in
insertion order, and a trailing summary naming the count exactly when more
than one record exists; in particular for mirror `["a", "b"]` the text
contains `"a"` before `"b"` and ends with the summary for count 2. -/
theorem getInsightsMemo_fallback_rendering
    (st : ClientState) (mo : MemoOutcome)
    (h : st.session = true) (hf : memoReadFails mo = true) :
    get_insights_memo st mo = .ok (memo_fallback_spec st.insights) ∧
    memo_fallback_spec [] = "No business insights have been discovered yet." ∧
    ContainsInOrder (memo_fallback_spec ["a", "b"]) ["a", "b"] ∧
    ∃ p, memo_fallback_spec ["a", "b"] = p ++ memo_summary 2 := by
  refine ⟨?_, rfl, ?_, memo_header ++ bullet_block ["a", "b"], ?_⟩
  · rw [getInsightsMemo_fallback st mo h hf, render_eq_spec]
  · rw [← render_eq_spec]
    exact render_contains [] ["a", "b"]
  · rfl

/-- Witness for claim C6's theorem: a connected client with mirror
`["a", "b"]` and a failing remote read. -/
theorem getInsightsMemo_fallback_rendering_witness :
    get_insights_memo ⟨true, ["a", "b"]⟩ (.err "boom") = .ok (memo_fallback_spec ["a", "b"]) ∧
    memo_fallback_spec [] = "No business insights have been discovered yet." ∧
    ContainsInOrder (memo_fallback_spec ["a", "b"]) ["a", "b"] ∧
    ∃ p, memo_fallback_spec ["a", "b"] = p ++ memo_summary 2 :=
  getInsightsMemo_fallback_rendering ⟨true, ["a", "b"]⟩ (.err "boom") rfl rfl

/-- Counterexample to claim C7 as stated: a client state with no session
established is a client state on which `get_insights_memo` raises
`RuntimeError("Not connected to server")` instead of returning a string. -/
theorem getInsightsMemo_disconnected_raises_counterexample :
    get_insights_memo ⟨false, []⟩ .timeout = .error "Not connected to server" := rfl

/-- Claim C7 (amended): for every client state with an established session
and every outcome of the remote read (success in any response shape,
timeout, or transport error), `get_insights_memo` never raises and returns
a string. -/
theorem getInsightsMemo_never_raises_when_connected
    (st : ClientState) (mo : MemoOutcome) (h : st.session = true) :
    ∃ s, get_insights_memo st mo = .ok s := by
  obtain ⟨sess, ins⟩ := st
  have h' : sess = true := h
  subst h'
  cases mo with
  | success result =>
    cases result with
    | pstr s => exact ⟨_, rfl⟩
    | plist xs => exact ⟨_, rfl⟩
    | pnone => exact ⟨_, rfl⟩
    | pobj otext ocontent rend =>
      cases ocontent with
      | none => exact ⟨_, rfl⟩
      | some c =>
        cases c with
        | pstr s => exact ⟨_, rfl⟩
        | plist xs => exact ⟨_, rfl⟩
        | pnone => exact ⟨_, rfl⟩
        | pobj ct cc cr =>
          cases ct with
          | some t => exact ⟨_, rfl⟩
          | none => exact ⟨_, rfl⟩
  | timeout => exact ⟨_, rfl⟩
  | err msg => exact ⟨_, rfl⟩

/-- Witness for claim C7's amended theorem at a connected client with an
empty mirror and a timed-out remote read. -/
theorem getInsightsMemo_never_raises_when_connected_witness :
    ∃ s, get_insights_memo ⟨true, []⟩ .timeout = .ok s :=
  getInsightsMemo_never_raises_when_connected ⟨true, []⟩ .timeout rfl

/-- Counterexample to claim C8 as stated: a `None` result does not imply an
escaped exception.  For the response `None` (which has no `content`
attribute), `json.loads` raises `TypeError` and `ast.literal_eval` raises
`ValueError`, both caught, and the content — Python `None` — is returned by
the normal path: the body succeeds (`parse_inner` returns `.ok`, no
exception escapes to the outer handler), yet `parse_response` yields
`None`. -/
theorem parseResponse_none_without_exception_counterexample :
    parse_response jsonNoParse litNoParse .pnone = .pnone ∧
    parse_inner jsonNoParse litNoParse .pnone = .ok .pnone :=
  ⟨rfl, rfl⟩

/-- Claim C8 (amended): normalization never raises — when both parse
attempts on a string content fail with their caught exceptions, the
original string is returned unchanged; an unexpected exception escaping one
of the two parse attempts is absorbed by the outer handler and yields
`None`; but `None` is returned exactly when either such an exception
escaped or the normalization body itself produced `None` (for example for
the response `None`, or for text a parser maps to `None`), so a `None`
result does not imply an escaped exception. -/
theorem parseResponse_never_raises_none_characterized
    (jparse : String → JsonOutcome) (lparse : String → LitOutcome) (response : Py) :
    (∀ s, extract_content response = .pstr s → jparse s = .decodeError →
      lparse s = .badNode → parse_response jparse lparse response = .pstr s) ∧
    (∀ e, parse_inner jparse lparse response = .error e →
      parse_response jparse lparse response = .pnone ∧
      ∃ s, extract_content response = .pstr s ∧
        (jparse s = .unexpected e ∨
          (jparse s = .decodeError ∧ lparse s = .unexpected e))) ∧
    (parse_response jparse lparse response = .pnone ↔
      (parse_inner jparse lparse response = .ok .pnone ∨
        ∃ e, parse_inner jparse lparse response = .error e)) := by
  refine ⟨?_, ?_, ?_⟩
  · intro s hs hj hl
    simp [parse_response, parse_inner, hs, hj, hl]
  · intro e he
    refine ⟨by simp [parse_response, he], ?_⟩
    exact (parse_inner_error_iff jparse lparse response e).mp he
  · cases hpi : parse_inner jparse lparse response with
    | ok v => simp [parse_response, hpi]
    | error e => simp [parse_response, hpi]

/-- Witness for claim C8's amended theorem: with both parsers failing with
their caught exceptions, a plain-string response normalizes to itself, and
its `None` characterization holds concretely. -/
theorem parseResponse_never_raises_none_characterized_witness :
    parse_response jsonNoParse litNoParse (.pstr "x") = .pstr "x" ∧
    (parse_response jsonNoParse litNoParse (.pstr "x") = .pnone ↔
      (parse_inner jsonNoParse litNoParse (.pstr "x") = .ok .pnone ∨
        ∃ e, parse_inner jsonNoParse litNoParse (.pstr "x") = .error e)) :=
  ⟨(parseResponse_never_raises_none_characterized jsonNoParse litNoParse (.pstr "x")).1
      "x" rfl rfl rfl,
    (parseResponse_never_raises_none_characterized jsonNoParse litNoParse (.pstr "x")).2.2⟩

/-- Counterexample to claim C9 as stated: for a response that is neither
text-like nor carries a `content` attribute, the claim's step 4 mandates
normalizing the response's default string rendering (here `"hello"`), but
the code returns the response object itself unchanged. -/
theorem parseResponse_spec_rendering_counterexample :
    parse_response jsonNoParse litNoParse (.pobj none none "hello") =
      .pobj none none "hello" ∧
    normalize_spec jsonNoParse litNoParse (.pobj none none "hello") = .pstr "hello" ∧
    Py.pobj none none "hello" ≠ Py.pstr "hello" :=
  ⟨rfl, rfl, fun hcontra => Py.noConfusion hcontra⟩

/-- Claim C9 (amended): `parse_response` extracts by the ordered precedence,
first match wins: (1) a `content` attribute that is a non-empty sequence
whose first element has a `text` attribute, (2) a `content` attribute with
a `text` attribute directly, (3) otherwise the `content` value itself when
a `content` attribute is present, else the response itself; a text-like
extract is then JSON-parsed, then literal-parsed, then returned as the
original string, while a non-text extract is returned unchanged (no string
rendering is ever taken). -/
theorem parseResponse_matches_amended_precedence
    (jparse : String → JsonOutcome) (lparse : String → LitOutcome) (response : Py) :
    parse_response jparse lparse response = normalize_amended jparse lparse response := by
  cases response with
  | pstr s =>
    rw [parse_response_pstr_chain jparse lparse s (.pstr s) rfl]
    rfl
  | plist xs => rfl
  | pnone => rfl
  | pobj otext ocontent rend =>
    cases ocontent with
    | none => rfl
    | some c =>
      cases c with
      | pstr s =>
        rw [parse_response_pstr_chain jparse lparse s (.pobj otext (some (.pstr s)) rend) rfl]
        rfl
      | plist xs =>
        cases xs with
        | nil => rfl
        | cons first rest =>
          cases first with
          | pstr s2 => rfl
          | plist l2 => rfl
          | pnone => rfl
          | pobj ft fc fr =>
            cases ft with
            | none => rfl
            | some t =>
              rw [parse_response_pstr_chain jparse lparse t
                (.pobj otext (some (.plist (Py.pobj (some t) fc fr :: rest))) rend) rfl]
              rfl
      | pnone => rfl
      | pobj ct cc cr =>
        cases ct with
        | none => rfl
        | some t =>
          rw [parse_response_pstr_chain jparse lparse t
            (.pobj otext (some (.pobj (some t) cc cr)) rend) rfl]
          rfl

end MCPClient
